import Mathlib

/-!
Verification of the Sales-Pulse inventory core: a shallow embedding of the
ledger data model, the FIFO aging engine (`build_fifo_ctes`), the anchored
balance engine (`_closing_soh_anchored` and its helpers), the negative-balance
preview (`_preview_negatives`), sell-out posting (`approve_uploads` /
`_post_sellout_running`), sell-in ledger capture (`_ensure_ledger_for_si_row`),
and the customer status recompute (`_recompute_customer_statuses`).

Quantities are floats in the source; they are embedded as rationals.  Dates
are embedded as integers (days); SQL `datediff(day, a, b)` becomes `b - a`.
-/

namespace SalesPulse

/-- Movement types of the inventory ledger (`MovementType` column). -/
inductive MovType
  | SELLIN
  | SELLOUT
  | ADJUST
deriving DecidableEq, Repr

/-- One row of `SP_InventoryLedger`.  `ledgerId` is the auto-increment
`LedgerID`; `docDate` is the `DocDate` as a day number. -/
structure LedgerEntry where
  ledgerId : Nat
  customerId : Nat
  skuId : Nat
  docDate : Int
  movementType : MovType
  qty : ℚ
  movementSubType : Option String := none
  uploadId : Option Nat := none
  idemKey : String := ""
deriving DecidableEq, Repr

/-! ## FIFO aging engine (`build_fifo_ctes`) -/

/-- Predicate of the `AdjustDates` CTE: ADJUST rows of the customer on or
before `as_of_date`. -/
def isCustAdjust (c : Nat) (asOf : Int) (e : LedgerEntry) : Bool :=
  decide (e.movementType = .ADJUST ∧ e.docDate ≤ asOf ∧ e.customerId = c)

/-- `AdjustDates` CTE: the customer-level earliest ADJUST `DocDate` on or
before `as_of_date` (`func.min`); `none` when the customer has no such row. -/
def custAdjustDate (ledger : List LedgerEntry) (c : Nat) (asOf : Int) : Option Int :=
  ((ledger.filter (isCustAdjust c asOf)).map (fun e => e.docDate)).min?

/-- `Movements` CTE for one (customer, SKU) pair: ledger rows of the pair in
the window `[adjust_date, as_of_date]`.  The inner join on `AdjustDates`
means a customer without an ADJUST row contributes no movements. -/
def fifoMovements (ledger : List LedgerEntry) (c s : Nat) (asOf : Int) :
    List LedgerEntry :=
  match custAdjustDate ledger c asOf with
  | none => []
  | some a =>
      ledger.filter (fun e =>
        decide (e.docDate ≤ asOf ∧ a ≤ e.docDate ∧ e.customerId = c ∧ e.skuId = s))

/-- `Totals.total_issues`: sum of `-Qty` over negative movements. -/
def totalIssues (ms : List LedgerEntry) : ℚ :=
  (ms.map (fun e => if e.qty < 0 then -e.qty else 0)).sum

/-- `Totals.total_receipts`: sum of `Qty` over positive movements. -/
def totalReceipts (ms : List LedgerEntry) : ℚ :=
  (ms.map (fun e => if 0 < e.qty then e.qty else 0)).sum

/-- FIFO consumption order on lots: `(DocDate, LedgerID)` ascending, the
`order_by` of the window functions in the `Receipts` CTE. -/
def lotLe (e₁ e₂ : LedgerEntry) : Prop :=
  e₁.docDate < e₂.docDate ∨ (e₁.docDate = e₂.docDate ∧ e₁.ledgerId ≤ e₂.ledgerId)

instance : DecidableRel lotLe := fun a b => by
  unfold lotLe; infer_instance

instance : IsTotal LedgerEntry lotLe := ⟨by
  intro a b; unfold lotLe; omega⟩

instance : IsTrans LedgerEntry lotLe := ⟨by
  intro a b c; unfold lotLe; omega⟩

/-- `Receipts` CTE: the positive-quantity movements (lots), in FIFO
consumption order.  (SQL window functions are computed after the
`WHERE Qty > 0` filter, so cumulative sums range over lots only.) -/
def receiptLots (ms : List LedgerEntry) : List LedgerEntry :=
  List.insertionSort lotLe (ms.filter (fun e => decide (0 < e.qty)))

/-- One row of the `Allocated` CTE. -/
structure FifoAlloc where
  ledgerId : Nat
  lotDate : Int
  lotQty : ℚ
  cumInPrev : ℚ
  consumedQty : ℚ
  remainingQty : ℚ
deriving DecidableEq, Repr

/-- The `consumed_expr` CASE of the `Allocated` CTE. -/
def fifoConsumedCase (ti cumPrev lotQty : ℚ) : ℚ :=
  if ti ≤ cumPrev then 0
  else if cumPrev + lotQty ≤ ti then lotQty
  else ti - cumPrev

/-- FIFO allocation over the ordered lots, carrying the running cumulative
receipt total (`cum_in_prev` window sum, `rows unbounded preceding .. 1
preceding`). -/
def allocateLots (ti : ℚ) : ℚ → List LedgerEntry → List FifoAlloc
  | _, [] => []
  | cum, e :: es =>
      { ledgerId := e.ledgerId, lotDate := e.docDate, lotQty := e.qty,
        cumInPrev := cum, consumedQty := fifoConsumedCase ti cum e.qty,
        remainingQty := e.qty - fifoConsumedCase ti cum e.qty }
        :: allocateLots ti (cum + e.qty) es

/-- `Allocated` CTE for one (customer, SKU) pair. -/
def fifoAllocated (ledger : List LedgerEntry) (c s : Nat) (asOf : Int) :
    List FifoAlloc :=
  let ms := fifoMovements ledger c s asOf
  allocateLots (totalIssues ms) 0 (receiptLots ms)

/-- `LiveLayers` CTE: allocated lots with `remaining_qty > 0`. -/
def liveLayers (ledger : List LedgerEntry) (c s : Nat) (asOf : Int) :
    List FifoAlloc :=
  (fifoAllocated ledger c s asOf).filter (fun a => decide (0 < a.remainingQty))

/-- `age_days = datediff(day, lot_date, as_of_date)`. -/
def ageDays (asOf lotDate : Int) : Int := asOf - lotDate

/-- One row of the `Buckets` CTE (the aggregates actually used downstream). -/
structure BucketRow where
  b0to30 : ℚ
  b31to60 : ℚ
  b61to90 : ℚ
  b90plus : ℚ
  sohQty : ℚ
  weightedAgeSum : ℚ
  oldestLotDate : Option Int
  newestLotDate : Option Int
deriving DecidableEq, Repr

/-- `Buckets` CTE row for one pair (no age filters).  `GROUP BY` produces no
row for a pair with no live layers, hence the `Option`. -/
def fifoBucketRow (ledger : List LedgerEntry) (c s : Nat) (asOf : Int) :
    Option BucketRow :=
  let ls := liveLayers ledger c s asOf
  if ls = [] then none
  else some
    { b0to30 := (ls.map (fun a =>
        if 0 ≤ ageDays asOf a.lotDate ∧ ageDays asOf a.lotDate ≤ 30
        then a.remainingQty else 0)).sum
      b31to60 := (ls.map (fun a =>
        if 31 ≤ ageDays asOf a.lotDate ∧ ageDays asOf a.lotDate ≤ 60
        then a.remainingQty else 0)).sum
      b61to90 := (ls.map (fun a =>
        if 61 ≤ ageDays asOf a.lotDate ∧ ageDays asOf a.lotDate ≤ 90
        then a.remainingQty else 0)).sum
      b90plus := (ls.map (fun a =>
        if 90 < ageDays asOf a.lotDate then a.remainingQty else 0)).sum
      sohQty := (ls.map (fun a => a.remainingQty)).sum
      weightedAgeSum := (ls.map (fun a =>
        a.remainingQty * ((ageDays asOf a.lotDate : ℚ)))).sum
      oldestLotDate := (ls.map (fun a => a.lotDate)).min?
      newestLotDate := (ls.map (fun a => a.lotDate)).max? }

/-- The claim's closed-form allocation: for the `i`-th lot in FIFO order,
`cum_in_prev` is the sum of the lot quantities strictly before it. -/
def fifoAllocClaim (ti : ℚ) (lots : List LedgerEntry) : List FifoAlloc :=
  (List.finRange lots.length).map fun i =>
    let e := lots.get i
    let cumPrev := ((lots.take i.val).map (fun x => x.qty)).sum
    { ledgerId := e.ledgerId, lotDate := e.docDate, lotQty := e.qty,
      cumInPrev := cumPrev, consumedQty := fifoConsumedCase ti cumPrev e.qty,
      remainingQty := e.qty - fifoConsumedCase ti cumPrev e.qty }

/-! ## Balance engine (`sales_pulse_general…py`) -/

/-- One row of `SP_SOH_Detail` joined with its `SP_SOH_Uploads` header:
a stock-on-hand snapshot declaration. -/
structure SohSnapshot where
  sohUploadId : Nat
  customerId : Nat
  skuId : Nat
  sohDate : Int
  sohQty : ℚ
  isActive : Bool
deriving DecidableEq, Repr

/-- `_signed_qty_expr`: SELLOUT contributes `-abs(Qty)`; SELLIN and ADJUST
contribute `Qty` as stored. -/
def signedQty (e : LedgerEntry) : ℚ :=
  match e.movementType with
  | .SELLOUT => -|e.qty|
  | .SELLIN => e.qty
  | .ADJUST => e.qty

/-- `_anchor_adjust_date_customer`: latest ADJUST date for any SKU of the
customer on/before `as_of` (`func.max`). -/
def anchorAdjustDateCustomer (ledger : List LedgerEntry) (c : Nat) (asOf : Int) :
    Option Int :=
  ((ledger.filter (fun e =>
      decide (e.customerId = c ∧ e.movementType = .ADJUST ∧ e.docDate ≤ asOf))).map
    (fun e => e.docDate)).max?

/-- `_anchor_adjust_date_sku_only`: latest ADJUST date for the specific SKU
on/before `as_of`. -/
def anchorAdjustDateSkuOnly (ledger : List LedgerEntry) (c s : Nat) (asOf : Int) :
    Option Int :=
  ((ledger.filter (fun e =>
      decide (e.customerId = c ∧ e.skuId = s ∧ e.movementType = .ADJUST ∧
        e.docDate ≤ asOf))).map
    (fun e => e.docDate)).max?

/-- `_effective_anchor_for_sku`: `max` of the two anchors when both exist,
whichever exists otherwise, else `none`.  (Python dates are always truthy,
so `if ca and sa` is exactly the both-`some` case.) -/
def effectiveAnchorForSku (ledger : List LedgerEntry) (c s : Nat) (asOf : Int) :
    Option Int :=
  match anchorAdjustDateCustomer ledger c asOf,
        anchorAdjustDateSkuOnly ledger c s asOf with
  | some ca, some sa => some (max ca sa)
  | some ca, none => some ca
  | none, some sa => some sa
  | none, none => none

/-- `_sum_signed_after_date`: signed sum for `day < DocDate ≤ until_incl`. -/
def sumSignedAfterDate (ledger : List LedgerEntry) (c s : Nat)
    (day untilIncl : Int) : ℚ :=
  ((ledger.filter (fun e =>
      decide (e.customerId = c ∧ e.skuId = s ∧ day < e.docDate ∧
        e.docDate ≤ untilIncl))).map signedQty).sum

/-- `_sum_signed_on_date_excl_adjust`: signed sum for `DocDate == day`
excluding ADJUST rows. -/
def sumSignedOnDateExclAdjust (ledger : List LedgerEntry) (c s : Nat)
    (day : Int) : ℚ :=
  ((ledger.filter (fun e =>
      decide (e.customerId = c ∧ e.skuId = s ∧ e.docDate = day ∧
        ¬ e.movementType = .ADJUST))).map signedQty).sum

/-- `_sum_signed_inclusive`: signed sum for `start ≤ DocDate ≤ end`. -/
def sumSignedInclusive (ledger : List LedgerEntry) (c s : Nat)
    (startIncl endIncl : Int) : ℚ :=
  ((ledger.filter (fun e =>
      decide (e.customerId = c ∧ e.skuId = s ∧ startIncl ≤ e.docDate ∧
        e.docDate ≤ endIncl))).map signedQty).sum

/-- Descending `(SOHDate, SOHUploadID)` order used by
`_latest_active_snapshot`'s `order_by(... desc, ... desc)`. -/
def snapDesc (r₁ r₂ : SohSnapshot) : Prop :=
  r₂.sohDate < r₁.sohDate ∨ (r₂.sohDate = r₁.sohDate ∧ r₂.sohUploadId ≤ r₁.sohUploadId)

instance : DecidableRel snapDesc := fun a b => by
  unfold snapDesc; infer_instance

instance : IsTotal SohSnapshot snapDesc := ⟨by
  intro a b; unfold snapDesc; omega⟩

instance : IsTrans SohSnapshot snapDesc := ⟨by
  intro a b c; unfold snapDesc; omega⟩

/-- `_latest_active_snapshot` (brand `None`): the first row of the active
snapshots on/before `as_of` ordered by `(SOHDate desc, SOHUploadID desc)`,
as `(snap_date, snap_qty)`; `none` when there is no snapshot. -/
def latestActiveSnapshot (snaps : List SohSnapshot) (c s : Nat) (asOf : Int) :
    Option (Int × ℚ) :=
  match List.insertionSort snapDesc (snaps.filter (fun r =>
      decide (r.customerId = c ∧ r.skuId = s ∧ r.isActive = true ∧
        r.sohDate ≤ asOf))) with
  | [] => none
  | r :: _ => some (r.sohDate, r.sohQty)

/-- Descending `SOHUploadID` order used by `_snapshot_qty_on_date`. -/
def snapIdDesc (r₁ r₂ : SohSnapshot) : Prop := r₂.sohUploadId ≤ r₁.sohUploadId

instance : DecidableRel snapIdDesc := fun a b => by
  unfold snapIdDesc; infer_instance

instance : IsTotal SohSnapshot snapIdDesc := ⟨by
  intro a b; unfold snapIdDesc; omega⟩

instance : IsTrans SohSnapshot snapIdDesc := ⟨by
  intro a b c; unfold snapIdDesc; omega⟩

/-- `_snapshot_qty_on_date`: `(qty, true)` from the active snapshot dated
exactly `snap_date` with the highest upload id, else `(0, false)`. -/
def snapshotQtyOnDate (snaps : List SohSnapshot) (c s : Nat) (d : Int) :
    ℚ × Bool :=
  match List.insertionSort snapIdDesc (snaps.filter (fun r =>
      decide (r.customerId = c ∧ r.skuId = s ∧ r.isActive = true ∧
        r.sohDate = d))) with
  | [] => (0, false)
  | r :: _ => (r.sohQty, true)

/-- `_closing_soh_anchored`: the balance engine, `balance_as_of` of the spec.
Total on all inputs — missing anchor and missing snapshot fall through to
the snapshot fallback and to `0`. -/
def closingSohAnchored (ledger : List LedgerEntry) (snaps : List SohSnapshot)
    (c s : Nat) (asOf : Int) : ℚ :=
  match effectiveAnchorForSku ledger c s asOf with
  | some anchor =>
      let p := snapshotQtyOnDate snaps c s anchor
      if p.2 then
        p.1 + sumSignedOnDateExclAdjust ledger c s anchor
            + sumSignedAfterDate ledger c s anchor asOf
      else
        sumSignedInclusive ledger c s anchor asOf
  | none =>
      match latestActiveSnapshot snaps c s asOf with
      | some (snapDate, snapQty) =>
          snapQty + sumSignedAfterDate ledger c s snapDate asOf
      | none => 0

/-! ## Negative-balance preview (`_preview_negatives`) -/

/-- One active `SP_MCSI_SellOut` detail line of a sell-out upload. -/
structure SellLine where
  rowNumber : Nat
  skuId : Nat
  docDate : Int
  qty : ℚ
deriving DecidableEq, Repr

/-- One entry of the per-line preview result. -/
structure PreviewLine where
  rowNumber : Nat
  skuId : Nat
  docDate : Int
  qty : ℚ
  availableBefore : ℚ
  cumulativeFromUpload : ℚ
  resultingBalance : ℚ
  isNegative : Bool
deriving DecidableEq, Repr

/-- The `1e-9` tolerance of `_preview_negatives`. -/
def previewEps : ℚ := 1 / 1000000000

/-- Sort order of one SKU group: `(DocumentDate, RowNumber)`. -/
def lineLe (d₁ d₂ : SellLine) : Prop :=
  d₁.docDate < d₂.docDate ∨ (d₁.docDate = d₂.docDate ∧ d₁.rowNumber ≤ d₂.rowNumber)

instance : DecidableRel lineLe := fun a b => by
  unfold lineLe; infer_instance

instance : IsTotal SellLine lineLe := ⟨by
  intro a b; unfold lineLe; omega⟩

instance : IsTrans SellLine lineLe := ⟨by
  intro a b c; unfold lineLe; omega⟩

/-- The per-SKU loop of `_preview_negatives`: carries the cumulative upload
consumption `cum` (never reset), the last seen date, and the availability
recomputed via `bal` (a fresh `_balance_as_of` call) whenever the date
changes. -/
def previewSkuLines (bal : Nat → Int → ℚ) (sku : Nat) :
    ℚ → Option Int → ℚ → List SellLine → List PreviewLine
  | _, _, _, [] => []
  | cum, lastDate, avail, d :: ds =>
      let avail' := if lastDate = some d.docDate then avail else bal sku d.docDate
      let cum' := cum + d.qty
      let resulting := avail' - cum'
      { rowNumber := d.rowNumber, skuId := d.skuId, docDate := d.docDate,
        qty := d.qty, availableBefore := avail', cumulativeFromUpload := cum',
        resultingBalance := resulting,
        isNegative := decide (resulting < -previewEps) }
        :: previewSkuLines bal sku cum' (some d.docDate) avail' ds

/-- One SKU group processed from its initial state (`cum_total = 0`,
`last_date = None`, `available_for_date = 0`). -/
def previewGroup (bal : Nat → Int → ℚ) (sku : Nat) (rows : List SellLine) :
    List PreviewLine :=
  previewSkuLines bal sku 0 none 0 rows

/-- First-appearance-order list of distinct elements (Python dict grouping
preserves insertion order). -/
def distinctFirst : List Nat → List Nat
  | [] => []
  | x :: xs => x :: distinctFirst (xs.filter (fun y => decide (¬ y = x)))
termination_by xs => xs.length
decreasing_by
  simp only [List.length_cons]
  exact Nat.lt_succ_of_le (List.length_filter_le _ _)

/-- `_preview_negatives`: group active lines by SKU (insertion order), sort
each group by `(DocumentDate, RowNumber)`, walk it with `previewSkuLines`,
and aggregate `has_negative` over all produced lines. -/
def previewNegatives (bal : Nat → Int → ℚ) (details : List SellLine) :
    Bool × List PreviewLine :=
  match details with
  | [] => (false, [])
  | _ =>
      let perLine :=
        ((distinctFirst (details.map (fun d => d.skuId))).map (fun sku =>
          previewGroup bal sku
            (List.insertionSort lineLe
              (details.filter (fun d => decide (d.skuId = sku)))))).flatten
      (perLine.any (fun pl => pl.isNegative), perLine)

/-! ## Sell-out posting (`approve_uploads` / `_post_sellout_running`) -/

/-- Status of a sell-out upload header. -/
inductive UploadStatus
  | Draft
  | Posting
  | Posted
  | Rejected
deriving DecidableEq, Repr

/-- A `SP_SellOutUploads` header. -/
structure Upload where
  uploadId : Nat
  customerId : Nat
  status : UploadStatus
deriving DecidableEq, Repr

/-- A `SP_MCSI_SellOut` detail row. -/
structure DetailRow where
  uploadId : Nat
  rowNumber : Nat
  skuId : Nat
  docDate : Int
  qty : ℚ
  isActive : Bool
deriving DecidableEq, Repr

/-- Database state touched by posting: upload headers, detail rows and the
inventory ledger.  `nextLedgerId` models the identity column. -/
structure PostState where
  uploads : List Upload
  details : List DetailRow
  ledger : List LedgerEntry
  nextLedgerId : Nat
deriving DecidableEq, Repr

/-- Outcome bucket of one id inside `approve_uploads`. -/
inductive PostResult
  | posted
  | skipped
  | failed
deriving DecidableEq, Repr

/-- `order_by(SKU_ID, DocumentDate, RowNumber)` on detail rows. -/
def detLe (d₁ d₂ : DetailRow) : Prop :=
  d₁.skuId < d₂.skuId ∨ (d₁.skuId = d₂.skuId ∧
    (d₁.docDate < d₂.docDate ∨ (d₁.docDate = d₂.docDate ∧ d₁.rowNumber ≤ d₂.rowNumber)))

instance : DecidableRel detLe := fun a b => by
  unfold detLe; infer_instance

instance : IsTotal DetailRow detLe := ⟨by
  intro a b; unfold detLe; omega⟩

instance : IsTrans DetailRow detLe := ⟨by
  intro a b c; unfold detLe; omega⟩

/-- The idempotency key written per posted line:
`SO_APPROVE:{UploadID}:{RowNumber}` built by string concatenation. -/
def soIdemKey (d : DetailRow) : String :=
  "SO_APPROVE:" ++ toString d.uploadId ++ ":" ++ toString d.rowNumber

/-- The SELLOUT ledger row written for one detail line:
`Qty = -float(d.SellOutQty)`. -/
def sellOutEntry (custId lid : Nat) (d : DetailRow) : LedgerEntry :=
  { ledgerId := lid, customerId := custId, skuId := d.skuId,
    docDate := d.docDate, movementType := .SELLOUT, qty := -d.qty,
    movementSubType := none, uploadId := some d.uploadId,
    idemKey := soIdemKey d }

/-- Ledger rows written for the detail lines, with consecutive identities. -/
def sellOutEntriesFrom (custId : Nat) : Nat → List DetailRow → List LedgerEntry
  | _, [] => []
  | lid, d :: ds => sellOutEntry custId lid d :: sellOutEntriesFrom custId (lid + 1) ds

/-- One iteration of `approve_uploads` for one upload id, wrapped in `_tx`:
look up the header, atomically claim Draft → Posting, and run
`_post_sellout_running`; a failing claim is `skipped`, an exception rolls
the whole transaction back (`failed`). -/
def postBatch (st : PostState) (uid : Nat) : PostState × PostResult :=
  match st.uploads.find? (fun u => decide (u.uploadId = uid)) with
  | none => (st, .failed)
  | some u =>
      let affected := (st.uploads.filter (fun v =>
        decide (v.uploadId = uid ∧ v.status = .Draft))).length
      let uploads1 := st.uploads.map (fun v =>
        if v.uploadId = uid ∧ v.status = .Draft then { v with status := .Posting } else v)
      if affected = 1 then
        let ds := List.insertionSort detLe (st.details.filter (fun d =>
          decide (d.uploadId = uid ∧ d.isActive = true)))
        match ds with
        | [] => (st, .failed)
        | _ =>
            ({ uploads := st.uploads.map (fun v =>
                 if v.uploadId = uid then { v with status := .Posted } else v),
               details := st.details,
               ledger := st.ledger ++ sellOutEntriesFrom u.customerId st.nextLedgerId ds,
               nextLedgerId := st.nextLedgerId + ds.length }, .posted)
      else
        ({ st with uploads := uploads1 }, .skipped)

/-! ## Sell-in ledger capture (`_ensure_ledger_for_si_row`) -/

/-- One `SP_MCSI_SellIn` source row (the fields the capture reads). -/
structure SiRow where
  article : String
  billingDoc : String
  soldToParty : String
  docDate : Int
  grossSale : ℚ
  returnQty : ℚ
deriving DecidableEq, Repr

/-- `_idempotency_key_for_si`. -/
def siIdemKey (r : SiRow) : String :=
  "SI:" ++ r.article ++ ":" ++ r.billingDoc ++ ":" ++ r.soldToParty ++ ":"
    ++ toString r.docDate

/-- `_ensure_ledger_for_si_row`: resolve customer and SKU; append the main
SELLIN row when `GrossSale > 0` and its key is new; append the RETURN row
(quantity normalised to be negative) when `ReturnQty ≠ 0` and its key is
new.  Returns the new ledger and the `posted_any` flag. -/
def ensureLedgerForSiRow (resolveCust resolveSku : String → Option Nat)
    (ledger : List LedgerEntry) (nextId : Nat) (r : SiRow) :
    List LedgerEntry × Bool :=
  match resolveCust r.soldToParty, resolveSku r.article with
  | some cid, some sid =>
      let idem := siIdemKey r
      let mainRows : List LedgerEntry :=
        if 0 < r.grossSale ∧ ¬ (ledger.any (fun e => decide (e.idemKey = idem))) = true then
          [{ ledgerId := nextId, customerId := cid, skuId := sid,
             docDate := r.docDate, movementType := .SELLIN, qty := r.grossSale,
             movementSubType := none, uploadId := none, idemKey := idem }]
        else []
      let retRows : List LedgerEntry :=
        if ¬ r.returnQty = 0 ∧
            ¬ (ledger.any (fun e => decide (e.idemKey = idem ++ ":RET"))) = true then
          [{ ledgerId := nextId + mainRows.length, customerId := cid, skuId := sid,
             docDate := r.docDate, movementType := .SELLIN,
             qty := if r.returnQty < 0 then r.returnQty else -r.returnQty,
             movementSubType := some "RETURN", uploadId := none,
             idemKey := idem ++ ":RET" }]
        else []
      (ledger ++ mainRows ++ retRows, ¬ (mainRows ++ retRows) = [])
  | _, _ => (ledger, false)

/-! ## Status recompute (`_recompute_customer_statuses`) -/

/-- The status ids resolved by `_get_status_id` at the top of the recompute. -/
structure StatusIds where
  active : Nat
  dead : Nat
  disabled : Nat
  tagIn : Nat
  tagOut : Nat
deriving DecidableEq, Repr

/-- One row of the recompute query: customer id, current primary status,
current tag set, and the latest SELLIN / SELLOUT dates (`none` = never). -/
structure CustRow where
  customerId : Nat
  statusId : Nat
  tags : List Nat
  lastIn : Option Int
  lastOut : Option Int
deriving DecidableEq, Repr

/-- `ds_in` / `ds_out`: days since the latest movement, with the `10**9`
sentinel when the movement type never occurred. -/
def idleDays (today : Int) : Option Int → Int
  | some d => today - d
  | none => 10 ^ 9

/-- The independent hibernating-tag computation (`want_tags`). -/
def wantTags (ids : StatusIds) (hibIn hibOut dsIn dsOut : Int) : List Nat :=
  (if hibIn < dsIn then [ids.tagIn] else [])
    ++ (if hibOut < dsOut then [ids.tagOut] else [])

/-- The primary-status rule: DEAD only when BOTH idle spans exceed the dead
threshold, else ACTIVE. -/
def newPrimary (ids : StatusIds) (deadDays dsIn dsOut : Int) : Nat :=
  if deadDays < dsIn ∧ deadDays < dsOut then ids.dead else ids.active

/-- Per-customer outcome of the recompute loop body. -/
inductive RecomputeOutcome
  | skippedDisabled
  | classified (primary : Nat) (tags : List Nat)
deriving DecidableEq, Repr

/-- The loop body of `_recompute_customer_statuses` for one customer. -/
def recomputeCustomer (ids : StatusIds) (deadDays hibIn hibOut today : Int)
    (c : CustRow) : RecomputeOutcome :=
  if c.statusId = ids.disabled then .skippedDisabled
  else
    let dsIn := idleDays today c.lastIn
    let dsOut := idleDays today c.lastOut
    .classified (newPrimary ids deadDays dsIn dsOut)
      (wantTags ids hibIn hibOut dsIn dsOut)

/-- The returned tally. -/
structure StatusTally where
  primaryUpdated : Nat
  tagsUpdated : Nat
  skippedDisabled : Nat
deriving DecidableEq, Repr

/-- The full recompute loop, accumulating the tally. -/
def recomputeStatuses (ids : StatusIds) (deadDays hibIn hibOut today : Int) :
    List CustRow → StatusTally
  | [] => { primaryUpdated := 0, tagsUpdated := 0, skippedDisabled := 0 }
  | c :: cs =>
      let t := recomputeStatuses ids deadDays hibIn hibOut today cs
      match recomputeCustomer ids deadDays hibIn hibOut today c with
      | .skippedDisabled => { t with skippedDisabled := t.skippedDisabled + 1 }
      | .classified p tags =>
          let t1 := if c.tags.toFinset = tags.toFinset then t
                    else { t with tagsUpdated := t.tagsUpdated + 1 }
          if c.statusId = p then t1
          else { t1 with primaryUpdated := t1.primaryUpdated + 1 }

/-! ## Concrete inputs used by counterexamples and witnesses -/

/-- A ledger where customer 1 has an ADJUST only for SKU 1, while the pair
(1, 2) has a SELLIN receipt and no ADJUST row at all. -/
def c6Ledger : List LedgerEntry := [
  { ledgerId := 1, customerId := 1, skuId := 1, docDate := 0,
    movementType := .ADJUST, qty := 5 },
  { ledgerId := 2, customerId := 1, skuId := 2, docDate := 1,
    movementType := .SELLIN, qty := 10 } ]

/-- Balance oracle of the C3 scenario: every balance is 10. -/
def c3Bal : Nat → Int → ℚ := fun _ _ => 10

/-- Batch of the C3 scenario: two lines for SKU 7 on the same date, with
quantities 4 and 8 in row order. -/
def c3Details : List SellLine := [
  { rowNumber := 1, skuId := 7, docDate := 100, qty := 4 },
  { rowNumber := 2, skuId := 7, docDate := 100, qty := 8 } ]

/-- Ledger for the C4 witness: ADJUST +100 on day 0, SELLIN +7 on day 0,
SELLOUT −3 on day 1, all for pair (1, 1). -/
def w4Ledger : List LedgerEntry := [
  { ledgerId := 1, customerId := 1, skuId := 1, docDate := 0,
    movementType := .ADJUST, qty := 100 },
  { ledgerId := 2, customerId := 1, skuId := 1, docDate := 0,
    movementType := .SELLIN, qty := 7 },
  { ledgerId := 3, customerId := 1, skuId := 1, docDate := 1,
    movementType := .SELLOUT, qty := -3 } ]

/-- Snapshot for the C4 witness: active, pair (1, 1), day 0, qty 50. -/
def w4Snaps : List SohSnapshot := [
  { sohUploadId := 1, customerId := 1, skuId := 1, sohDate := 0,
    sohQty := 50, isActive := true } ]

/-- State for the C7/C9 witnesses: one Draft upload with one active line. -/
def w7State : PostState :=
  { uploads := [{ uploadId := 1, customerId := 5, status := .Draft }],
    details := [{ uploadId := 1, rowNumber := 1, skuId := 9, docDate := 50,
                  qty := 3, isActive := true }],
    ledger := [],
    nextLedgerId := 10 }

instance : Std.Antisymm ((· ≤ ·) : Int → Int → Prop) :=
  ⟨by intro a b h₁ h₂; omega⟩

/-- The single detail row of `w7State`. -/
def w9Detail : DetailRow :=
  { uploadId := 1, rowNumber := 1, skuId := 9, docDate := 50,
    qty := 3, isActive := true }

/-- Sell-in source row for the C9 witness. -/
def w9SiRow : SiRow :=
  { article := "A", billingDoc := "B", soldToParty := "C", docDate := 3,
    grossSale := 4, returnQty := 2 }

/-- The main SELLIN ledger row the capture writes for `w9SiRow`. -/
def w9Main : LedgerEntry :=
  { ledgerId := 0, customerId := 1, skuId := 2, docDate := 3,
    movementType := .SELLIN, qty := 4, movementSubType := none,
    uploadId := none, idemKey := siIdemKey w9SiRow }

/-- Status ids of the C10 scenario. -/
def c10Ids : StatusIds :=
  { active := 1, dead := 2, disabled := 3, tagIn := 4, tagOut := 5 }

/-- Customer of the C10 scenario: last sell-in 40 days ago, last sell-out
100 days ago (today = 1000). -/
def c10Cust : CustRow :=
  { customerId := 1, statusId := 1, tags := [], lastIn := some 960,
    lastOut := some 900 }

/-! # Theorems -/

/-! ## FIFO helper lemmas -/

theorem length_allocateLots (ti : ℚ) :
    ∀ (cum : ℚ) (lots : List LedgerEntry),
      (allocateLots ti cum lots).length = lots.length
  | _, [] => rfl
  | cum, e :: es => by
      simp [allocateLots, length_allocateLots ti (cum + e.qty) es]

theorem allocateLots_eq_claimFrom (ti : ℚ) :
    ∀ (lots : List LedgerEntry) (cum : ℚ),
      allocateLots ti cum lots =
        (List.finRange lots.length).map fun i =>
          let e := lots.get i
          let cumPrev := cum + ((lots.take i.val).map (fun x => x.qty)).sum
          { ledgerId := e.ledgerId, lotDate := e.docDate, lotQty := e.qty,
            cumInPrev := cumPrev, consumedQty := fifoConsumedCase ti cumPrev e.qty,
            remainingQty := e.qty - fifoConsumedCase ti cumPrev e.qty }
  | [], _ => by simp [allocateLots]
  | e :: es, cum => by
      rw [allocateLots, allocateLots_eq_claimFrom ti es (cum + e.qty)]
      simp only [List.length_cons, List.finRange_succ_eq_map, List.map_cons,
        List.map_map]
      rw [List.cons_eq_cons]
      constructor
      · simp
      · apply List.map_congr_left
        intro i _
        simp [Function.comp, List.take_succ_cons, add_assoc]

theorem fifoConsumedCase_le {ti cum q : ℚ} (hq : 0 < q) :
    fifoConsumedCase ti cum q ≤ q := by
  unfold fifoConsumedCase
  split
  · linarith
  · split
    · linarith
    · linarith

theorem totalReceipts_eq_filter_sum (ms : List LedgerEntry) :
    totalReceipts ms =
      ((ms.filter (fun e => decide (0 < e.qty))).map (fun e => e.qty)).sum := by
  induction ms with
  | nil => rfl
  | cons e es ih =>
      by_cases h : (0:ℚ) < e.qty
      · simp [totalReceipts, List.filter_cons, h] at ih ⊢
        rw [ih]
      · simp [totalReceipts, List.filter_cons, h] at ih ⊢
        rw [ih]

theorem allocate_conservation (ti : ℚ) :
    ∀ (lots : List LedgerEntry), (∀ e ∈ lots, (0:ℚ) < e.qty) → ∀ (cum : ℚ),
      (((allocateLots ti cum lots).filter
          (fun a => decide (0 < a.remainingQty))).map (fun a => a.remainingQty)).sum
        + ((allocateLots ti cum lots).map (fun a => a.consumedQty)).sum
      = (lots.map (fun e => e.qty)).sum
  | [], _, _ => by simp [allocateLots]
  | e :: es, hpos, cum => by
      have he : (0:ℚ) < e.qty := hpos e (by simp)
      have ih := allocate_conservation ti es
        (fun x hx => hpos x (List.mem_cons_of_mem _ hx)) (cum + e.qty)
      rw [allocateLots]
      simp only [List.filter_cons, List.map_cons, List.sum_cons]
      by_cases hrem : (0:ℚ) < e.qty - fifoConsumedCase ti cum e.qty
      · rw [if_pos (decide_eq_true hrem)]
        simp only [List.map_cons, List.sum_cons]
        linarith [ih]
      · have hle := @fifoConsumedCase_le ti cum e.qty he
        have h0 : e.qty - fifoConsumedCase ti cum e.qty = 0 := by
          push_neg at hrem
          linarith
        rw [if_neg (by simpa using hrem)]
        have hc : fifoConsumedCase ti cum e.qty = e.qty := by linarith
        rw [hc]
        linarith [ih]

theorem mem_receiptLots_pos {ms : List LedgerEntry} {e : LedgerEntry}
    (h : e ∈ receiptLots ms) : (0:ℚ) < e.qty := by
  have := (List.perm_insertionSort lotLe
    (ms.filter (fun x => decide (0 < x.qty)))).mem_iff.mp h
  simpa using (List.mem_filter.mp this).2

/-! ## Claim theorems -/

/-- C1: for every (customer, SKU) pair and as_of date, the FIFO engine
(a) puts the positive-quantity movements of the window in `(DocDate,
LedgerID)` ascending order (and exactly those movements); (b) allocates with
`cum_in_prev` equal to the sum of the lot quantities strictly before the lot
in that order, `consumed_from_lot` by the three-way case split on
`total_issues`, and `remaining_qty = lot_qty − consumed_from_lot`; and
(c) reports as live layers exactly the lots with `remaining_qty > 0`. -/
theorem fifo_allocation_matches_claim (ledger : List LedgerEntry) (c s : Nat)
    (asOf : Int) :
    List.Sorted lotLe (receiptLots (fifoMovements ledger c s asOf))
    ∧ (receiptLots (fifoMovements ledger c s asOf)).Perm
        ((fifoMovements ledger c s asOf).filter (fun e => decide (0 < e.qty)))
    ∧ fifoAllocated ledger c s asOf
        = fifoAllocClaim (totalIssues (fifoMovements ledger c s asOf))
            (receiptLots (fifoMovements ledger c s asOf))
    ∧ (∀ a : FifoAlloc, a ∈ liveLayers ledger c s asOf ↔
        a ∈ fifoAllocated ledger c s asOf ∧ 0 < a.remainingQty) := by
  refine ⟨List.sorted_insertionSort lotLe _, List.perm_insertionSort lotLe _,
    ?_, ?_⟩
  · rw [fifoAllocated, allocateLots_eq_claimFrom, fifoAllocClaim]
    apply List.map_congr_left
    intro i _
    simp
  · intro a
    simp [liveLayers, List.mem_filter]

/-- C2: FIFO conservation — per pair, the sum of `remaining_qty` over live
layers plus the sum of `consumed_from_lot` over all allocated lots equals
`total_receipts` of the window. -/
theorem fifo_conservation (ledger : List LedgerEntry) (c s : Nat) (asOf : Int) :
    ((liveLayers ledger c s asOf).map (fun a => a.remainingQty)).sum
      + ((fifoAllocated ledger c s asOf).map (fun a => a.consumedQty)).sum
      = totalReceipts (fifoMovements ledger c s asOf) := by
  rw [totalReceipts_eq_filter_sum]
  have hperm := List.perm_insertionSort lotLe
    ((fifoMovements ledger c s asOf).filter (fun e => decide (0 < e.qty)))
  rw [← (hperm.map (fun e => e.qty)).sum_eq]
  rw [liveLayers, fifoAllocated]
  exact allocate_conservation _ _ (fun e he => mem_receiptLots_pos he) 0

/-- C6 counterexample: the pair (1, 2) of `c6Ledger` has zero ADJUST ledger
entries, yet the FIFO aging output contains a live layer and a bucket row
for it — pair-level ADJUST absence does not exclude a pair. -/
theorem fifo_pair_exclusion_counterexample :
    ((c6Ledger.filter (fun e =>
        decide (e.customerId = 1 ∧ e.skuId = 2 ∧ e.movementType = .ADJUST))).length = 0)
    ∧ liveLayers c6Ledger 1 2 2 ≠ []
    ∧ (fifoBucketRow c6Ledger 1 2 2).isSome = true := by
  have hm : fifoMovements c6Ledger 1 2 2 =
      [{ ledgerId := 2, customerId := 1, skuId := 2, docDate := 1,
         movementType := .SELLIN, qty := 10 }] := by decide
  have hlots : receiptLots (fifoMovements c6Ledger 1 2 2) =
      [{ ledgerId := 2, customerId := 1, skuId := 2, docDate := 1,
         movementType := .SELLIN, qty := 10 }] := by
    rw [hm]; decide
  have hti : totalIssues (fifoMovements c6Ledger 1 2 2) = 0 := by
    rw [hm]; norm_num [totalIssues]
  have hlive : liveLayers c6Ledger 1 2 2 =
      [{ ledgerId := 2, lotDate := 1, lotQty := 10, cumInPrev := 0,
         consumedQty := 0, remainingQty := 10 }] := by
    rw [liveLayers, fifoAllocated, hti, hlots]
    norm_num [allocateLots, fifoConsumedCase, List.filter_cons]
  refine ⟨by decide, ?_, ?_⟩
  · rw [hlive]; simp
  · rw [fifoBucketRow, hlive]; simp

/-- C6 amended: exclusion is at customer level — a (customer, SKU) pair whose
customer has zero ADJUST ledger entries dated on or before as_of is excluded
from the FIFO aging output entirely (no allocated lot, no live layer, no
bucket row). -/
theorem fifo_customer_exclusion (ledger : List LedgerEntry) (c s : Nat)
    (asOf : Int)
    (h : ∀ e ∈ ledger,
      ¬ (e.movementType = .ADJUST ∧ e.docDate ≤ asOf ∧ e.customerId = c)) :
    fifoAllocated ledger c s asOf = []
    ∧ liveLayers ledger c s asOf = []
    ∧ fifoBucketRow ledger c s asOf = none := by
  have hadj : custAdjustDate ledger c asOf = none := by
    rw [custAdjustDate, List.min?_eq_none_iff, List.map_eq_nil_iff,
      List.filter_eq_nil_iff]
    intro e he
    simpa [isCustAdjust] using h e he
  have hm : fifoMovements ledger c s asOf = [] := by
    rw [fifoMovements, hadj]
  have halloc : fifoAllocated ledger c s asOf = [] := by
    rw [fifoAllocated, hm]
    rfl
  have hlive : liveLayers ledger c s asOf = [] := by
    rw [liveLayers, halloc]
    rfl
  exact ⟨halloc, hlive, by rw [fifoBucketRow, hlive]; rfl⟩

/-- C6 amended, witness: a customer with an empty ledger is excluded. -/
theorem fifo_customer_exclusion_witness :
    fifoAllocated [] 1 1 0 = []
    ∧ liveLayers [] 1 1 0 = []
    ∧ fifoBucketRow [] 1 1 0 = none :=
  fifo_customer_exclusion [] 1 1 0 (by simp)

/-- C4: with a resolved effective anchor and an active snapshot exactly on
the anchor date, `balance_as_of` returns snapshot qty plus the signed sum of
non-ADJUST entries dated on the anchor plus the signed sum of all entries
with `anchor < DocDate ≤ as_of`; the signed convention maps SELLOUT to
`-abs(qty)` and keeps SELLIN/ADJUST as stored. -/
theorem balance_anchored_snapshot (ledger : List LedgerEntry)
    (snaps : List SohSnapshot) (c s : Nat) (asOf : Int) (a : Int) (q : ℚ)
    (ha : effectiveAnchorForSku ledger c s asOf = some a)
    (hs : snapshotQtyOnDate snaps c s a = (q, true)) :
    closingSohAnchored ledger snaps c s asOf
      = q + ((ledger.filter (fun e =>
            decide (e.customerId = c ∧ e.skuId = s ∧ e.docDate = a ∧
              ¬ e.movementType = .ADJUST))).map signedQty).sum
          + ((ledger.filter (fun e =>
            decide (e.customerId = c ∧ e.skuId = s ∧ a < e.docDate ∧
              e.docDate ≤ asOf))).map signedQty).sum
    ∧ (∀ e : LedgerEntry,
        (e.movementType = .SELLOUT → signedQty e = -|e.qty|)
        ∧ (e.movementType = .SELLIN → signedQty e = e.qty)
        ∧ (e.movementType = .ADJUST → signedQty e = e.qty)) := by
  constructor
  · simp only [closingSohAnchored, ha, hs]
    rfl
  · intro e
    refine ⟨?_, ?_, ?_⟩ <;> intro h <;> simp [signedQty, h]

/-- C4 witness: on `w4Ledger`/`w4Snaps` the anchor is day 0, the snapshot
there is 50, and the balance as of day 2 is `50 + 7 − 3 = 54`. -/
theorem balance_anchored_snapshot_witness :
    closingSohAnchored w4Ledger w4Snaps 1 1 2 = 54 := by
  have h := (balance_anchored_snapshot w4Ledger w4Snaps 1 1 2 0 50
    (by decide) (by decide)).1
  have hf1 : w4Ledger.filter (fun e =>
      decide (e.customerId = 1 ∧ e.skuId = 1 ∧ e.docDate = 0 ∧
        ¬ e.movementType = .ADJUST)) =
      [{ ledgerId := 2, customerId := 1, skuId := 1, docDate := 0,
         movementType := .SELLIN, qty := 7 }] := by decide
  have hf2 : w4Ledger.filter (fun e =>
      decide (e.customerId = 1 ∧ e.skuId = 1 ∧ (0:Int) < e.docDate ∧
        e.docDate ≤ 2)) =
      [{ ledgerId := 3, customerId := 1, skuId := 1, docDate := 1,
         movementType := .SELLOUT, qty := -3 }] := by decide
  rw [h, hf1, hf2]
  norm_num [signedQty]

/-- C5: `balance_as_of` is total and collapses missing data to defaults:
with no effective anchor it falls back to the latest active snapshot on or
before as_of plus the signed ledger delta strictly after the snapshot date
up to as_of, and with no snapshot either it returns 0. -/
theorem balance_no_anchor_fallback (ledger : List LedgerEntry)
    (snaps : List SohSnapshot) (c s : Nat) (asOf : Int)
    (ha : effectiveAnchorForSku ledger c s asOf = none) :
    (∀ d q, latestActiveSnapshot snaps c s asOf = some (d, q) →
      closingSohAnchored ledger snaps c s asOf
        = q + ((ledger.filter (fun e =>
            decide (e.customerId = c ∧ e.skuId = s ∧ d < e.docDate ∧
              e.docDate ≤ asOf))).map signedQty).sum)
    ∧ (latestActiveSnapshot snaps c s asOf = none →
      closingSohAnchored ledger snaps c s asOf = 0) := by
  constructor
  · intro d q hsnap
    simp only [closingSohAnchored, ha, hsnap]
    rfl
  · intro hsnap
    simp only [closingSohAnchored, ha, hsnap]

/-- C5 witness: with an empty ledger and no snapshots the balance is 0; with
a snapshot of 50 on day 0 and an empty ledger the balance is 50. -/
theorem balance_no_anchor_fallback_witness :
    closingSohAnchored [] [] 1 1 5 = 0
    ∧ closingSohAnchored [] w4Snaps 1 1 5 = 50 := by
  constructor
  · exact (balance_no_anchor_fallback [] [] 1 1 5 (by decide)).2 (by decide)
  · have h := (balance_no_anchor_fallback [] w4Snaps 1 1 5 (by decide)).1
      0 50 (by decide)
    rw [h]
    norm_num

/-- C8: `effective_anchor` returns the max of customer and SKU anchors when
both exist, whichever exists when only one does, `none` when neither does;
and each anchor is the maximum ADJUST `DocDate ≤ as_of` of its scope
(customer-wide, respectively narrowed to the SKU). -/
theorem effective_anchor_spec (ledger : List LedgerEntry) (c s : Nat)
    (asOf : Int) :
    (∀ ca sa, anchorAdjustDateCustomer ledger c asOf = some ca →
      anchorAdjustDateSkuOnly ledger c s asOf = some sa →
      effectiveAnchorForSku ledger c s asOf = some (max ca sa))
    ∧ (∀ ca, anchorAdjustDateCustomer ledger c asOf = some ca →
      anchorAdjustDateSkuOnly ledger c s asOf = none →
      effectiveAnchorForSku ledger c s asOf = some ca)
    ∧ (∀ sa, anchorAdjustDateCustomer ledger c asOf = none →
      anchorAdjustDateSkuOnly ledger c s asOf = some sa →
      effectiveAnchorForSku ledger c s asOf = some sa)
    ∧ (anchorAdjustDateCustomer ledger c asOf = none →
      anchorAdjustDateSkuOnly ledger c s asOf = none →
      effectiveAnchorForSku ledger c s asOf = none)
    ∧ (∀ m, anchorAdjustDateCustomer ledger c asOf = some m →
      (∃ e ∈ ledger, e.customerId = c ∧ e.movementType = .ADJUST ∧
        e.docDate ≤ asOf ∧ e.docDate = m)
      ∧ ∀ e ∈ ledger, e.customerId = c → e.movementType = .ADJUST →
          e.docDate ≤ asOf → e.docDate ≤ m)
    ∧ (∀ m, anchorAdjustDateSkuOnly ledger c s asOf = some m →
      (∃ e ∈ ledger, e.customerId = c ∧ e.skuId = s ∧ e.movementType = .ADJUST ∧
        e.docDate ≤ asOf ∧ e.docDate = m)
      ∧ ∀ e ∈ ledger, e.customerId = c → e.skuId = s → e.movementType = .ADJUST →
          e.docDate ≤ asOf → e.docDate ≤ m)
    ∧ (anchorAdjustDateCustomer ledger c asOf = none ↔
      ∀ e ∈ ledger, ¬ (e.customerId = c ∧ e.movementType = .ADJUST ∧
        e.docDate ≤ asOf)) := by
  have hmax := fun (l : List Int) (m : Int) =>
    @List.max?_eq_some_iff Int m _ _ _ (fun a => le_refl a)
      (fun a b => max_choice a b) (fun a b c => max_le_iff) l
  refine ⟨?_, ?_, ?_, ?_, ?_, ?_, ?_⟩
  · intro ca sa h1 h2
    simp [effectiveAnchorForSku, h1, h2]
  · intro ca h1 h2
    simp [effectiveAnchorForSku, h1, h2]
  · intro sa h1 h2
    simp [effectiveAnchorForSku, h1, h2]
  · intro h1 h2
    simp [effectiveAnchorForSku, h1, h2]
  · intro m hm
    rw [anchorAdjustDateCustomer, hmax] at hm
    obtain ⟨hmem, hub⟩ := hm
    constructor
    · simp only [List.mem_map, List.mem_filter, decide_eq_true_eq] at hmem
      obtain ⟨e, ⟨he, hp⟩, hd⟩ := hmem
      exact ⟨e, he, hp.1, hp.2.1, hp.2.2, hd⟩
    · intro e he h1 h2 h3
      exact hub e.docDate (by
        simp only [List.mem_map, List.mem_filter, decide_eq_true_eq]
        exact ⟨e, ⟨he, h1, h2, h3⟩, rfl⟩)
  · intro m hm
    rw [anchorAdjustDateSkuOnly, hmax] at hm
    obtain ⟨hmem, hub⟩ := hm
    constructor
    · simp only [List.mem_map, List.mem_filter, decide_eq_true_eq] at hmem
      obtain ⟨e, ⟨he, hp⟩, hd⟩ := hmem
      exact ⟨e, he, hp.1, hp.2.1, hp.2.2.1, hp.2.2.2, hd⟩
    · intro e he h1 h2 h3 h4
      exact hub e.docDate (by
        simp only [List.mem_map, List.mem_filter, decide_eq_true_eq]
        exact ⟨e, ⟨he, h1, h2, h3, h4⟩, rfl⟩)
  · rw [anchorAdjustDateCustomer, List.max?_eq_none_iff, List.map_eq_nil_iff,
      List.filter_eq_nil_iff]
    constructor
    · intro h e he hp
      exact h e he (by simpa using hp)
    · intro h e he
      simpa using h e he

/-- C8 witness: on `w4Ledger` both anchors of pair (1, 1) as of day 2 exist
and equal 0, and the effective anchor is their max. -/
theorem effective_anchor_spec_witness :
    effectiveAnchorForSku w4Ledger 1 1 2 = some (max 0 0) :=
  (effective_anchor_spec w4Ledger 1 1 2).1 0 0 (by decide) (by decide)

/-- Closed form of the per-SKU preview walk: element `i` carries
`available_before = bal sku (date of line i)` (recomputed only on date
change, but equal to a fresh balance call on every line) and the cumulative
total of the first `i+1` quantities on top of the carried accumulator. -/
theorem previewSkuLines_getElem? (bal : Nat → Int → ℚ) (sku : Nat) :
    ∀ (rows : List SellLine) (cum : ℚ) (lastD : Option Int) (avail : ℚ),
      (∀ d, lastD = some d → avail = bal sku d) →
      ∀ i : Nat, (previewSkuLines bal sku cum lastD avail rows)[i]? =
        (rows[i]?).map (fun d =>
          { rowNumber := d.rowNumber, skuId := d.skuId, docDate := d.docDate,
            qty := d.qty,
            availableBefore := bal sku d.docDate,
            cumulativeFromUpload := cum + ((rows.take (i+1)).map (fun x => x.qty)).sum,
            resultingBalance := bal sku d.docDate
              - (cum + ((rows.take (i+1)).map (fun x => x.qty)).sum),
            isNegative := decide (bal sku d.docDate
              - (cum + ((rows.take (i+1)).map (fun x => x.qty)).sum) < -previewEps) })
  | [], cum, lastD, avail, _, i => by
      simp [previewSkuLines]
  | d :: ds, cum, lastD, avail, hinv, i => by
      have havail :
          (if lastD = some d.docDate then avail else bal sku d.docDate)
            = bal sku d.docDate := by
        by_cases hld : lastD = some d.docDate
        · rw [if_pos hld, hinv d.docDate hld]
        · rw [if_neg hld]
      match i with
      | 0 =>
          simp only [previewSkuLines, List.getElem?_cons_zero, Option.map_some]
          rw [havail]
          simp [List.take_succ_cons]
      | (j+1) =>
          simp only [previewSkuLines, List.getElem?_cons_succ]
          rw [previewSkuLines_getElem? bal sku ds (cum + d.qty) (some d.docDate)
            (if lastD = some d.docDate then avail else bal sku d.docDate)
            (by intro d0 h0; rw [havail]; cases h0; rfl) j]
          cases hj : ds[j]? with
          | none => simp
          | some d0 =>
              simp only [Option.map_some, List.take_succ_cons, List.map_cons,
                List.sum_cons]
              simp only [add_assoc]

/-- C3: `preview_negatives` processes each SKU group sorted by
`(DocumentDate, RowNumber)` with one cumulative total that accrues across
date boundaries; each line gets `available_before` equal to a fresh
`balance_as_of` at its date, `resulting_balance = available_before −
cumulative`, and is flagged exactly when `resulting_balance < −1e-9`;
`has_negative` holds iff some line is flagged; and on the concrete scenario
(balance 10, same-date lines of qty 4 and 8) line 1 resolves to 6 (not
negative), line 2 to cumulative 12 and resulting −2 (negative), with
`has_negative = true`. -/
theorem preview_negatives_correct :
    (∀ (bal : Nat → Int → ℚ) (sku : Nat) (rows : List SellLine) (i : Nat),
      (previewGroup bal sku rows)[i]? =
        (rows[i]?).map (fun d =>
          { rowNumber := d.rowNumber, skuId := d.skuId, docDate := d.docDate,
            qty := d.qty,
            availableBefore := bal sku d.docDate,
            cumulativeFromUpload := ((rows.take (i+1)).map (fun x => x.qty)).sum,
            resultingBalance := bal sku d.docDate
              - ((rows.take (i+1)).map (fun x => x.qty)).sum,
            isNegative := decide (bal sku d.docDate
              - ((rows.take (i+1)).map (fun x => x.qty)).sum < -previewEps) }))
    ∧ (∀ (bal : Nat → Int → ℚ) (details : List SellLine),
      (previewNegatives bal details).1 = true ↔
        ∃ pl ∈ (previewNegatives bal details).2, pl.isNegative = true)
    ∧ (previewNegatives c3Bal c3Details).2 =
        [{ rowNumber := 1, skuId := 7, docDate := 100, qty := 4,
           availableBefore := 10, cumulativeFromUpload := 4,
           resultingBalance := 6, isNegative := false },
         { rowNumber := 2, skuId := 7, docDate := 100, qty := 8,
           availableBefore := 10, cumulativeFromUpload := 12,
           resultingBalance := -2, isNegative := true }]
    ∧ (previewNegatives c3Bal c3Details).1 = true := by
  have hgroup : previewGroup c3Bal 7 c3Details =
      [{ rowNumber := 1, skuId := 7, docDate := 100, qty := 4,
         availableBefore := 10, cumulativeFromUpload := 4,
         resultingBalance := 6, isNegative := false },
       { rowNumber := 2, skuId := 7, docDate := 100, qty := 8,
         availableBefore := 10, cumulativeFromUpload := 12,
         resultingBalance := -2, isNegative := true }] := by
    simp only [previewGroup, c3Details, previewSkuLines, c3Bal]
    norm_num [previewEps]
    simp
    norm_num
  have hgroupLit := hgroup
  rw [show c3Details = [{ rowNumber := 1, skuId := 7, docDate := 100, qty := 4 },
      { rowNumber := 2, skuId := 7, docDate := 100, qty := 8 }] from rfl] at hgroupLit
  have hdistinct : distinctFirst [7, 7] = [7] := by
    simp [distinctFirst]
  have hfilter : (([{ rowNumber := 1, skuId := 7, docDate := 100, qty := 4 },
      { rowNumber := 2, skuId := 7, docDate := 100, qty := 8 }] : List SellLine).filter
        (fun d => decide (d.skuId = 7))) =
      [{ rowNumber := 1, skuId := 7, docDate := 100, qty := 4 },
       { rowNumber := 2, skuId := 7, docDate := 100, qty := 8 }] := by
    decide
  have hsort : List.insertionSort lineLe
      [{ rowNumber := 1, skuId := 7, docDate := 100, qty := 4 },
       ({ rowNumber := 2, skuId := 7, docDate := 100, qty := 8 } : SellLine)] =
      [{ rowNumber := 1, skuId := 7, docDate := 100, qty := 4 },
       { rowNumber := 2, skuId := 7, docDate := 100, qty := 8 }] := by
    decide
  have hpn : previewNegatives c3Bal c3Details =
      (true, previewGroup c3Bal 7 c3Details) := by
    simp only [previewNegatives, c3Details, List.map_cons, List.map_nil,
      hdistinct, hfilter, hsort, List.flatten, List.append_nil]
    simp only [hgroupLit]
    simp
  refine ⟨?_, ?_, ?_, ?_⟩
  · intro bal sku rows i
    have h0 := previewSkuLines_getElem? bal sku rows 0 none 0 (by simp) i
    rw [previewGroup, h0]
    cases rows[i]? <;> simp
  · intro bal details
    cases details with
    | nil => simp [previewNegatives]
    | cons d ds =>
        simp only [previewNegatives, List.any_eq_true, List.mem_flatten,
          List.mem_map]
  · rw [hpn, hgroup]
  · rw [hpn]

/-! ## Posting helper lemmas -/

theorem postBatch_eq_notFound (st : PostState) (uid : Nat)
    (hf : st.uploads.find? (fun v => decide (v.uploadId = uid)) = none) :
    postBatch st uid = (st, .failed) := by
  simp only [postBatch, hf]

theorem postBatch_eq_skipped (st : PostState) (uid : Nat) (u : Upload)
    (hf : st.uploads.find? (fun v => decide (v.uploadId = uid)) = some u)
    (haff : ¬ (st.uploads.filter (fun v =>
      decide (v.uploadId = uid ∧ v.status = .Draft))).length = 1) :
    postBatch st uid =
      ({ st with uploads := st.uploads.map (fun v =>
          if v.uploadId = uid ∧ v.status = .Draft then
            { v with status := UploadStatus.Posting } else v) }, .skipped) := by
  simp only [postBatch, hf]
  rw [if_neg haff]

theorem postBatch_eq_failedEmpty (st : PostState) (uid : Nat) (u : Upload)
    (hf : st.uploads.find? (fun v => decide (v.uploadId = uid)) = some u)
    (haff : (st.uploads.filter (fun v =>
      decide (v.uploadId = uid ∧ v.status = .Draft))).length = 1)
    (hds : List.insertionSort detLe (st.details.filter (fun d =>
      decide (d.uploadId = uid ∧ d.isActive = true))) = []) :
    postBatch st uid = (st, .failed) := by
  simp only [postBatch, hf, haff, hds, eq_self_iff_true, if_true]

theorem postBatch_eq_posted (st : PostState) (uid : Nat) (u : Upload)
    (d : DetailRow) (ds0 : List DetailRow)
    (hf : st.uploads.find? (fun v => decide (v.uploadId = uid)) = some u)
    (haff : (st.uploads.filter (fun v =>
      decide (v.uploadId = uid ∧ v.status = .Draft))).length = 1)
    (hds : List.insertionSort detLe (st.details.filter (fun d =>
      decide (d.uploadId = uid ∧ d.isActive = true))) = d :: ds0) :
    postBatch st uid =
      ({ uploads := st.uploads.map (fun v =>
           if v.uploadId = uid then { v with status := UploadStatus.Posted } else v),
         details := st.details,
         ledger := st.ledger ++ sellOutEntriesFrom u.customerId st.nextLedgerId (d :: ds0),
         nextLedgerId := st.nextLedgerId + (d :: ds0).length }, .posted) := by
  simp only [postBatch, hf, haff, hds, eq_self_iff_true, if_true]

theorem find?_uploadId_map (uid : Nat) (g : Upload → Upload)
    (hg : ∀ v, (g v).uploadId = v.uploadId) (l : List Upload) :
    (l.map g).find? (fun v => decide (v.uploadId = uid)) =
      (l.find? (fun v => decide (v.uploadId = uid))).map g := by
  rw [List.find?_map]
  have hfun : ((fun v : Upload => decide (v.uploadId = uid)) ∘ g)
      = fun v : Upload => decide (v.uploadId = uid) := by
    funext v
    simp [Function.comp, hg]
  rw [hfun]

/-- A call on a state whose upload-`uid` rows are all non-Draft observes an
affected count of zero, is skipped, and leaves the state unchanged. -/
theorem postBatch_noDraft (st : PostState) (uid : Nat) (u : Upload)
    (hf : st.uploads.find? (fun v => decide (v.uploadId = uid)) = some u)
    (hnd : ∀ v ∈ st.uploads, v.uploadId = uid → ¬ v.status = .Draft) :
    (postBatch st uid).2 = .skipped ∧ (postBatch st uid).1 = st := by
  have hflt : st.uploads.filter (fun v =>
      decide (v.uploadId = uid ∧ v.status = .Draft)) = [] := by
    rw [List.filter_eq_nil_iff]
    intro v hv
    simpa using fun h1 => hnd v hv h1
  have heq := postBatch_eq_skipped st uid u hf (by rw [hflt]; simp)
  have hmap : st.uploads.map (fun v =>
      if v.uploadId = uid ∧ v.status = .Draft then
        { v with status := UploadStatus.Posting } else v) = st.uploads := by
    rw [show st.uploads.map (fun v =>
        if v.uploadId = uid ∧ v.status = .Draft then
          { v with status := UploadStatus.Posting } else v)
      = st.uploads.map id from List.map_congr_left (by
        intro v hv
        rw [if_neg (by
          intro hc
          exact hnd v hv hc.1 hc.2)]
        rfl), List.map_id]
  rw [heq, hmap]
  exact ⟨rfl, rfl⟩

/-- After a successful post, no row of the upload is Draft any more. -/
theorem noDraft_after_posted (uid : Nat) (l : List Upload) :
    ∀ v ∈ l.map (fun v => if v.uploadId = uid then
        { v with status := UploadStatus.Posted } else v),
      v.uploadId = uid → ¬ v.status = .Draft := by
  intro v hv hvid
  obtain ⟨w, _, rfl⟩ := List.mem_map.mp hv
  by_cases hw : w.uploadId = uid
  · rw [if_pos hw]
    simp
  · rw [if_neg hw] at hvid ⊢
    exact absurd hvid hw

theorem mem_sellOutEntriesFrom {cust : Nat} :
    ∀ {n : Nat} {ds : List DetailRow} {e : LedgerEntry},
      e ∈ sellOutEntriesFrom cust n ds → ∃ d ∈ ds, ∃ k, e = sellOutEntry cust k d := by
  intro n ds
  induction ds generalizing n with
  | nil => intro e he; simp [sellOutEntriesFrom] at he
  | cons d ds0 ih =>
      intro e he
      rw [sellOutEntriesFrom, List.mem_cons] at he
      cases he with
      | inl h => exact ⟨d, by simp, n, h⟩
      | inr h =>
          obtain ⟨d0, hd0, k, hk⟩ := ih h
          exact ⟨d0, List.mem_cons_of_mem _ hd0, k, hk⟩

/-- C7: posting is idempotent and serialized — posting happens only when the
atomic Draft → Posting claim affects exactly one row; on a state where the
batch is no longer Draft the claim affects zero rows and the call is skipped
with the state unchanged (no ledger writes); a second call after a
successful post is skipped; and running `postBatch` twice always leaves the
same ledger as running it once. -/
theorem post_batch_idempotent_serialized :
    (∀ (st : PostState) (uid : Nat),
      (postBatch (postBatch st uid).1 uid).1.ledger = (postBatch st uid).1.ledger)
    ∧ (∀ (st : PostState) (uid : Nat) (u : Upload),
      st.uploads.find? (fun v => decide (v.uploadId = uid)) = some u →
      (∀ v ∈ st.uploads, v.uploadId = uid → ¬ v.status = .Draft) →
      (postBatch st uid).2 = .skipped ∧ (postBatch st uid).1 = st)
    ∧ (∀ (st : PostState) (uid : Nat), (postBatch st uid).2 = .posted →
      (st.uploads.filter (fun v =>
        decide (v.uploadId = uid ∧ v.status = .Draft))).length = 1)
    ∧ (∀ (st : PostState) (uid : Nat), (postBatch st uid).2 = .posted →
      (postBatch (postBatch st uid).1 uid).2 = .skipped) := by
  have hsecond : ∀ (st : PostState) (uid : Nat),
      (postBatch (postBatch st uid).1 uid).1.ledger = (postBatch st uid).1.ledger := by
    intro st uid
    cases hf : st.uploads.find? (fun v => decide (v.uploadId = uid)) with
    | none =>
        rw [postBatch_eq_notFound st uid hf, postBatch_eq_notFound st uid hf]
    | some u =>
        by_cases haff : (st.uploads.filter (fun v =>
            decide (v.uploadId = uid ∧ v.status = .Draft))).length = 1
        · cases hds : List.insertionSort detLe (st.details.filter (fun d =>
              decide (d.uploadId = uid ∧ d.isActive = true))) with
          | nil =>
              rw [postBatch_eq_failedEmpty st uid u hf haff hds,
                postBatch_eq_failedEmpty st uid u hf haff hds]
          | cons d ds0 =>
              rw [postBatch_eq_posted st uid u d ds0 hf haff hds]
              set st1 : PostState :=
                { uploads := st.uploads.map (fun v =>
                    if v.uploadId = uid then { v with status := UploadStatus.Posted } else v),
                  details := st.details,
                  ledger := st.ledger ++ sellOutEntriesFrom u.customerId st.nextLedgerId (d :: ds0),
                  nextLedgerId := st.nextLedgerId + (d :: ds0).length } with hst1
              cases hf1 : st1.uploads.find? (fun v => decide (v.uploadId = uid)) with
              | none => rw [postBatch_eq_notFound st1 uid hf1]
              | some u1 =>
                  rw [(postBatch_noDraft st1 uid u1 hf1
                    (noDraft_after_posted uid st.uploads)).2]
        · rw [postBatch_eq_skipped st uid u hf haff]
          set st1 : PostState :=
            { st with uploads := st.uploads.map (fun v =>
                if v.uploadId = uid ∧ v.status = .Draft then
                  { v with status := UploadStatus.Posting } else v) } with hst1
          cases hf1 : st1.uploads.find? (fun v => decide (v.uploadId = uid)) with
          | none => rw [postBatch_eq_notFound st1 uid hf1]
          | some u1 =>
              have hnd1 : ∀ v ∈ st1.uploads, v.uploadId = uid → ¬ v.status = .Draft := by
                intro v hv hvid
                obtain ⟨w, _, rfl⟩ := List.mem_map.mp hv
                by_cases hw : w.uploadId = uid ∧ w.status = .Draft
                · rw [if_pos hw]
                  simp
                · rw [if_neg hw] at hvid ⊢
                  intro hdr
                  exact hw ⟨hvid, hdr⟩
              rw [(postBatch_noDraft st1 uid u1 hf1 hnd1).2]
  have hposted : ∀ (st : PostState) (uid : Nat), (postBatch st uid).2 = .posted →
      (st.uploads.filter (fun v =>
        decide (v.uploadId = uid ∧ v.status = .Draft))).length = 1 := by
    intro st uid h
    cases hf : st.uploads.find? (fun v => decide (v.uploadId = uid)) with
    | none => rw [postBatch_eq_notFound st uid hf] at h; exact absurd h (by simp)
    | some u =>
        by_cases haff : (st.uploads.filter (fun v =>
            decide (v.uploadId = uid ∧ v.status = .Draft))).length = 1
        · exact haff
        · rw [postBatch_eq_skipped st uid u hf haff] at h
          exact absurd h (by simp)
  refine ⟨hsecond, ?_, hposted, ?_⟩
  · intro st uid u hf hnd
    exact postBatch_noDraft st uid u hf hnd
  · intro st uid h
    cases hf : st.uploads.find? (fun v => decide (v.uploadId = uid)) with
    | none => rw [postBatch_eq_notFound st uid hf] at h; exact absurd h (by simp)
    | some u =>
        have haff := hposted st uid h
        cases hds : List.insertionSort detLe (st.details.filter (fun d =>
            decide (d.uploadId = uid ∧ d.isActive = true))) with
        | nil =>
            rw [postBatch_eq_failedEmpty st uid u hf haff hds] at h
            exact absurd h (by simp)
        | cons d ds0 =>
            rw [postBatch_eq_posted st uid u d ds0 hf haff hds]
            set st1 : PostState :=
              { uploads := st.uploads.map (fun v =>
                  if v.uploadId = uid then { v with status := UploadStatus.Posted } else v),
                details := st.details,
                ledger := st.ledger ++ sellOutEntriesFrom u.customerId st.nextLedgerId (d :: ds0),
                nextLedgerId := st.nextLedgerId + (d :: ds0).length } with hst1
            have hfm := find?_uploadId_map uid (fun v =>
              if v.uploadId = uid then { v with status := UploadStatus.Posted } else v)
              (by intro v; dsimp only; split <;> rfl) st.uploads
            rw [hf] at hfm
            exact (postBatch_noDraft st1 uid _ hfm
              (noDraft_after_posted uid st.uploads)).1

/-- C7 witness: on the concrete Draft state the double-run leaves the ledger
of the single run, and on a state already Posted the call is skipped with
the state unchanged. -/
theorem post_batch_idempotent_serialized_witness :
    (postBatch (postBatch w7State 1).1 1).1.ledger = (postBatch w7State 1).1.ledger
    ∧ ((postBatch { w7State with uploads :=
          [{ uploadId := 1, customerId := 5, status := .Posted }] } 1).2 = .skipped
      ∧ (postBatch { w7State with uploads :=
          [{ uploadId := 1, customerId := 5, status := .Posted }] } 1).1 =
        { w7State with uploads :=
          [{ uploadId := 1, customerId := 5, status := .Posted }] }) :=
  ⟨post_batch_idempotent_serialized.1 w7State 1,
    post_batch_idempotent_serialized.2.1 _ 1
      { uploadId := 1, customerId := 5, status := .Posted } (by decide) (by decide)⟩

/-- C9: every SELLOUT row written by posting stores `Qty` as the negative
magnitude of the line's consumption (given the upstream validation that
detail quantities are non-negative), and sell-in capture writes SELLIN rows
with their natural sign — the main receipt positive as stored, the return
normalised to a negative quantity. -/
theorem ledger_sign_invariant :
    (∀ (st : PostState) (uid : Nat), (∀ d ∈ st.details, (0:ℚ) ≤ d.qty) →
      ∀ e ∈ (postBatch st uid).1.ledger, e ∉ st.ledger →
        e.movementType = .SELLOUT ∧ e.qty ≤ 0 ∧
        ∃ d ∈ st.details, d.uploadId = uid ∧ d.isActive = true ∧ e.qty = -|d.qty|)
    ∧ (∀ (resolveCust resolveSku : String → Option Nat)
        (ledger : List LedgerEntry) (nid : Nat) (r : SiRow),
      ∀ e ∈ (ensureLedgerForSiRow resolveCust resolveSku ledger nid r).1,
        e ∉ ledger →
        e.movementType = .SELLIN ∧
        (e.movementSubType = none → e.qty = r.grossSale ∧ 0 < e.qty) ∧
        (e.movementSubType = some "RETURN" → e.qty = -|r.returnQty| ∧ e.qty < 0)) := by
  constructor
  · intro st uid hq e he hne
    cases hf : st.uploads.find? (fun v => decide (v.uploadId = uid)) with
    | none =>
        rw [postBatch_eq_notFound st uid hf] at he
        exact absurd he hne
    | some u =>
        by_cases haff : (st.uploads.filter (fun v =>
            decide (v.uploadId = uid ∧ v.status = .Draft))).length = 1
        · cases hds : List.insertionSort detLe (st.details.filter (fun d =>
              decide (d.uploadId = uid ∧ d.isActive = true))) with
          | nil =>
              rw [postBatch_eq_failedEmpty st uid u hf haff hds] at he
              exact absurd he hne
          | cons d ds0 =>
              rw [postBatch_eq_posted st uid u d ds0 hf haff hds] at he
              rcases List.mem_append.mp he with hmem | hmem
              · exact absurd hmem hne
              · obtain ⟨d0, hd0, k, rfl⟩ := mem_sellOutEntriesFrom hmem
                have hd0' : d0 ∈ st.details ∧ d0.uploadId = uid ∧ d0.isActive = true := by
                  have := (List.perm_insertionSort detLe
                    (st.details.filter (fun x =>
                      decide (x.uploadId = uid ∧ x.isActive = true)))).mem_iff.mp
                    (hds ▸ hd0)
                  have hmf := List.mem_filter.mp this
                  have hp := of_decide_eq_true hmf.2
                  exact ⟨hmf.1, hp.1, hp.2⟩
                have hq0 : (0:ℚ) ≤ d0.qty := hq d0 hd0'.1
                refine ⟨rfl, ?_, d0, hd0'.1, hd0'.2.1, hd0'.2.2, ?_⟩
                · show -d0.qty ≤ 0
                  linarith
                · show -d0.qty = -|d0.qty|
                  rw [abs_of_nonneg hq0]
        · rw [postBatch_eq_skipped st uid u hf haff] at he
          exact absurd he hne
  · intro resolveCust resolveSku ledger nid r e he hne
    cases hrc : resolveCust r.soldToParty with
    | none =>
        simp only [ensureLedgerForSiRow, hrc] at he
        exact absurd he hne
    | some cid =>
        cases hrs : resolveSku r.article with
        | none =>
            simp only [ensureLedgerForSiRow, hrc, hrs] at he
            exact absurd he hne
        | some sid =>
            simp only [ensureLedgerForSiRow, hrc, hrs] at he
            rw [List.append_assoc, List.mem_append] at he
            rcases he with hmem | hmem
            · exact absurd hmem hne
            · rw [List.mem_append] at hmem
              rcases hmem with hmain | hret
              · by_cases hc : 0 < r.grossSale ∧
                    ¬ (ledger.any (fun e => decide (e.idemKey = siIdemKey r))) = true
                · rw [if_pos hc, List.mem_singleton] at hmain
                  subst hmain
                  refine ⟨rfl, ?_, ?_⟩
                  · intro _
                    exact ⟨rfl, hc.1⟩
                  · intro hcontra
                    simp at hcontra
                · rw [if_neg hc] at hmain
                  simp at hmain
              · by_cases hc : ¬ r.returnQty = 0 ∧
                    ¬ (ledger.any (fun e =>
                      decide (e.idemKey = siIdemKey r ++ ":RET"))) = true
                · rw [if_pos hc, List.mem_singleton] at hret
                  subst hret
                  refine ⟨rfl, ?_, ?_⟩
                  · intro hcontra
                    simp at hcontra
                  · intro _
                    by_cases hlt : r.returnQty < 0
                    · show (if r.returnQty < 0 then r.returnQty else -r.returnQty)
                        = -|r.returnQty| ∧
                        (if r.returnQty < 0 then r.returnQty else -r.returnQty) < 0
                      rw [if_pos hlt, abs_of_neg hlt]
                      exact ⟨by ring, hlt⟩
                    · have hgt : 0 < r.returnQty := by
                        rcases lt_trichotomy r.returnQty 0 with h | h | h
                        · exact absurd h hlt
                        · exact absurd h hc.1
                        · exact h
                      show (if r.returnQty < 0 then r.returnQty else -r.returnQty)
                        = -|r.returnQty| ∧
                        (if r.returnQty < 0 then r.returnQty else -r.returnQty) < 0
                      rw [if_neg hlt, abs_of_pos hgt]
                      exact ⟨rfl, by linarith⟩
                · rw [if_neg hc] at hret
                  simp at hret

/-- C9 witness: posting the concrete Draft batch writes the SELLOUT row
`sellOutEntry 5 10` of the single detail line, whose quantity is `−|3|`;
sell-in capture of a row with `GrossSale = 4` writes a positive SELLIN row
as stored. -/
theorem ledger_sign_invariant_witness :
    ((sellOutEntry 5 10 w9Detail).movementType = .SELLOUT
      ∧ (sellOutEntry 5 10 w9Detail).qty ≤ 0
      ∧ ∃ d ∈ w7State.details, d.uploadId = 1 ∧ d.isActive = true ∧
          (sellOutEntry 5 10 w9Detail).qty = -|d.qty|)
    ∧ (w9Main.movementType = .SELLIN ∧ w9Main.qty = w9SiRow.grossSale
      ∧ 0 < w9Main.qty) := by
  constructor
  · have hpost := postBatch_eq_posted w7State 1
      { uploadId := 1, customerId := 5, status := .Draft } w9Detail []
      (by decide) (by decide) (by decide)
    have hmem : sellOutEntry 5 10 w9Detail ∈ (postBatch w7State 1).1.ledger := by
      rw [hpost]
      simp [sellOutEntriesFrom, w7State]
    have hnot : sellOutEntry 5 10 w9Detail ∉ w7State.ledger := by
      simp [w7State]
    have hq : ∀ d ∈ w7State.details, (0:ℚ) ≤ d.qty := by
      intro d hd
      simp only [w7State, List.mem_singleton] at hd
      subst hd
      norm_num [w9Detail]
    exact ledger_sign_invariant.1 w7State 1 hq _ hmem hnot
  · have hmem : w9Main ∈ (ensureLedgerForSiRow (fun _ => some 1)
        (fun _ => some 2) [] 0 w9SiRow).1 := by
      simp only [ensureLedgerForSiRow]
      rw [if_pos (⟨by norm_num [w9SiRow], by simp⟩ :
        0 < w9SiRow.grossSale ∧
        ¬ (([] : List LedgerEntry).any (fun e =>
          decide (e.idemKey = siIdemKey w9SiRow))) = true)]
      simp [w9Main, w9SiRow]
    have h := ledger_sign_invariant.2 (fun _ => some 1) (fun _ => some 2)
      [] 0 w9SiRow w9Main hmem (by simp)
    exact ⟨h.1, (h.2.1 (by rw [w9Main])).1, (h.2.1 (by rw [w9Main])).2⟩

theorem recomputeStatuses_skipped_count (ids : StatusIds)
    (deadDays hibIn hibOut today : Int) :
    ∀ rows : List CustRow,
      (recomputeStatuses ids deadDays hibIn hibOut today rows).skippedDisabled
        = (rows.filter (fun c => decide (c.statusId = ids.disabled))).length
  | [] => rfl
  | c :: cs => by
      have ih := recomputeStatuses_skipped_count ids deadDays hibIn hibOut today cs
      rw [recomputeStatuses, List.filter_cons]
      by_cases hdis : c.statusId = ids.disabled
      · rw [if_pos (decide_eq_true hdis)]
        simp only [recomputeCustomer, if_pos hdis]
        simp [ih]
      · rw [if_neg (by simpa using hdis)]
        simp only [recomputeCustomer, if_neg hdis]
        split <;> split <;> simp [ih]

/-- C10: the recompute classifies a non-Disabled customer with primary
status DEAD exactly when both idle spans exceed the dead threshold
(otherwise ACTIVE), derives the two hibernating tags independently of each
other and of the primary status, uses the `10^9` sentinel for a movement
type that never occurred, skips Disabled customers and counts them in the
tally; on the scenario (dead 90, hib 30/30, sell-in 40 days ago, sell-out
100 days ago) the customer keeps ACTIVE and carries the sell-in hibernating
tag. -/
theorem recompute_statuses_correct :
    (∀ (ids : StatusIds) (deadDays hibIn hibOut today : Int) (c : CustRow),
      ¬ c.statusId = ids.disabled →
      recomputeCustomer ids deadDays hibIn hibOut today c =
        .classified
          (newPrimary ids deadDays (idleDays today c.lastIn) (idleDays today c.lastOut))
          (wantTags ids hibIn hibOut (idleDays today c.lastIn) (idleDays today c.lastOut)))
    ∧ (∀ (ids : StatusIds) (deadDays hibIn hibOut today : Int) (c : CustRow),
      c.statusId = ids.disabled →
      recomputeCustomer ids deadDays hibIn hibOut today c = .skippedDisabled)
    ∧ (∀ (ids : StatusIds) (deadDays dsIn dsOut : Int),
      (deadDays < dsIn ∧ deadDays < dsOut →
        newPrimary ids deadDays dsIn dsOut = ids.dead)
      ∧ (¬ (deadDays < dsIn ∧ deadDays < dsOut) →
        newPrimary ids deadDays dsIn dsOut = ids.active))
    ∧ (∀ (ids : StatusIds) (hibIn hibOut dsIn dsOut : Int),
      ¬ ids.tagIn = ids.tagOut →
      (ids.tagIn ∈ wantTags ids hibIn hibOut dsIn dsOut ↔ hibIn < dsIn)
      ∧ (ids.tagOut ∈ wantTags ids hibIn hibOut dsIn dsOut ↔ hibOut < dsOut))
    ∧ (∀ today : Int, idleDays today none = 10 ^ 9)
    ∧ (∀ (ids : StatusIds) (deadDays hibIn hibOut today : Int)
        (rows : List CustRow),
      (recomputeStatuses ids deadDays hibIn hibOut today rows).skippedDisabled
        = (rows.filter (fun c => decide (c.statusId = ids.disabled))).length)
    ∧ recomputeCustomer c10Ids 90 30 30 1000 c10Cust =
        .classified c10Ids.active [c10Ids.tagIn, c10Ids.tagOut] := by
  refine ⟨?_, ?_, ?_, ?_, ?_, ?_, ?_⟩
  · intro ids deadDays hibIn hibOut today c hdis
    simp [recomputeCustomer, hdis]
  · intro ids deadDays hibIn hibOut today c hdis
    simp [recomputeCustomer, hdis]
  · intro ids deadDays dsIn dsOut
    constructor
    · intro h
      simp [newPrimary, h]
    · intro h
      simp [newPrimary, h]
  · intro ids hibIn hibOut dsIn dsOut hne
    constructor
    · rw [wantTags, List.mem_append]
      constructor
      · intro h
        rcases h with h | h
        · by_contra hx
          rw [if_neg hx] at h
          simp at h
        · by_cases hx : hibOut < dsOut
          · rw [if_pos hx, List.mem_singleton] at h
            exact absurd h hne
          · rw [if_neg hx] at h
            simp at h
      · intro h
        left
        rw [if_pos h]
        simp
    · rw [wantTags, List.mem_append]
      constructor
      · intro h
        rcases h with h | h
        · by_cases hx : hibIn < dsIn
          · rw [if_pos hx, List.mem_singleton] at h
            exact absurd h.symm hne
          · rw [if_neg hx] at h
            simp at h
        · by_contra hx
          rw [if_neg hx] at h
          simp at h
      · intro h
        right
        rw [if_pos h]
        simp
  · intro today
    rfl
  · intro ids deadDays hibIn hibOut today rows
    exact recomputeStatuses_skipped_count ids deadDays hibIn hibOut today rows
  · decide

/-- C10 witness: the scenario customer is not Disabled and is classified
with the ACTIVE primary status and both hibernating tags. -/
theorem recompute_statuses_correct_witness :
    recomputeCustomer c10Ids 90 30 30 1000 c10Cust =
      .classified
        (newPrimary c10Ids 90 (idleDays 1000 c10Cust.lastIn)
          (idleDays 1000 c10Cust.lastOut))
        (wantTags c10Ids 30 30 (idleDays 1000 c10Cust.lastIn)
          (idleDays 1000 c10Cust.lastOut))
    ∧ (c10Ids.tagIn ∈ wantTags c10Ids 30 30 (idleDays 1000 c10Cust.lastIn)
        (idleDays 1000 c10Cust.lastOut) ↔ (30:Int) < idleDays 1000 c10Cust.lastIn) :=
  ⟨recompute_statuses_correct.1 c10Ids 90 30 30 1000 c10Cust (by decide),
    (recompute_statuses_correct.2.2.2.1 c10Ids 30 30
      (idleDays 1000 c10Cust.lastIn) (idleDays 1000 c10Cust.lastOut) (by decide)).1⟩

end SalesPulse
